import Mathlib

/-!
# Verification of the AnyToSticker sticker-normalization pipeline

Shallow embedding of `src/AnyToSticker/src/image_processor.cpp` (namespace
`anysticker`).  Paths are modelled as `List Char`; file-system reads, the
raster-library decode/resize/encode primitives and giflib's slurp step are
modelled as explicit oracle parameters (the spec lists them as external
collaborators).  C++ `double` arithmetic is modelled exactly: a finite
double value is a dyadic rational, each arithmetic operation computes the
exact rational result and rounds it with `fl` (IEEE-754 binary64
round-to-nearest, ties-to-even, implemented on ℚ by scaling into the 53-bit
mantissa range), and division by zero produces the IEEE special values
(`DVal`).  The inputs this program feeds these operations stay far inside
the normal range, so subnormals and overflow never arise.
-/

namespace AnyToSticker

/-- Models `std::tolower` (C locale) on the ASCII characters the code feeds it. -/
def asciiToLower (c : Char) : Char :=
  if 'A' ≤ c ∧ c ≤ 'Z' then Char.ofNat (c.toNat + 32) else c

/-- Models `std::filesystem::path(p).filename()`: the component after the last
separator. -/
def filenameOf (p : List Char) : List Char :=
  (p.reverse.takeWhile (fun c => c ≠ '/')).reverse

/-- Models `std::filesystem::path(p).extension()`: the substring of the
filename from its last dot, except that the filenames `.` and `..` and a
filename whose only dot is its first character have no extension. -/
def extensionOf (p : List Char) : List Char :=
  let f := filenameOf p
  if f = ['.'] ∨ f = ['.', '.'] then []
  else if f.contains '.' then
    let ext := '.' :: (f.reverse.takeWhile (fun c => c ≠ '.')).reverse
    if ext.length = f.length then [] else ext
  else []

/-- ASCII bytes of `"WEBP"`, compared by the `memcmp` in the WEBP sniff. -/
def webpMagic : List Nat := [87, 69, 66, 80]

/-- `ImageProcessor::IsAnimatedImage`.  `fileBytes` models
`fopen`+`fread` of (up to) the first 16 bytes: `none` when the file cannot be
opened. -/
def IsAnimatedImage (fileBytes : List Char → Option (List Nat))
    (path : List Char) : Bool :=
  let ext := extensionOf path
  let lowerExt := ext.map asciiToLower
  if lowerExt = ".gif".data then
    true  -- let every gif be animated
  else if lowerExt = ".webp".data then
    match fileBytes path with
    | none => false
    | some header =>
      if header.length < 16 then false
      else (header.drop 12).take 4 == webpMagic
  else false

/-- The binade exponent of a positive rational: the unique `e` with
`2^e ≤ q < 2^(e+1)`. -/
def expOf (q : ℚ) : Int :=
  if 1 ≤ q then (Nat.log 2 ⌊q⌋.toNat : Int)
  else
    let f := Nat.log 2 ⌊1/q⌋.toNat
    if (2:ℚ)^(-(f:Int)) ≤ q then -(f:Int) else -(f:Int) - 1

/-- Round a rational to the nearest integer, ties to even. -/
def rnd (s : ℚ) : Int :=
  if (1:ℚ)/2 < s - ⌊s⌋ then ⌊s⌋ + 1
  else if s - ⌊s⌋ < (1:ℚ)/2 then ⌊s⌋
  else if ⌊s⌋ % 2 = 0 then ⌊s⌋ else ⌊s⌋ + 1

/-- Round a positive rational to the nearest IEEE binary64 double
(round-to-nearest, ties-to-even): scale into the 53-bit mantissa range
`[2^52, 2^53)`, round the integer mantissa, scale back.  Value-correct for
the whole normal range (a mantissa rounded up to `2^53` is the exact value
of the next binade); this program's inputs never reach subnormals or
overflow. -/
def flPos (q : ℚ) : ℚ :=
  (rnd (q * (2:ℚ)^((52:Int) - expOf q)) : ℚ) * (2:ℚ)^(expOf q - 52)

/-- IEEE binary64 rounding of an exact (rational) arithmetic result. -/
def fl (q : ℚ) : ℚ :=
  if q = 0 then 0 else if 0 < q then flPos q else -flPos (-q)

/-- A C++ `double` value as used by `CalculateTelegramSize`: a rounded
(dyadic) rational or an IEEE special value. -/
inductive DVal where
  | fin : ℚ → DVal
  | posInf : DVal
  | negInf : DVal
  | nan : DVal
deriving DecidableEq

/-- `static_cast<double>(a) / b` for `int` operands: the `int`s convert to
double exactly (|a| < 2^53), the division rounds its exact quotient once;
IEEE gives ±∞ for division of a nonzero number by zero and NaN for `0/0`. -/
def intDiv (a b : Int) : DVal :=
  if b = 0 then (if 0 < a then .posInf else if a < 0 then .negInf else .nan)
  else .fin (fl ((a : ℚ) / (b : ℚ)))

/-- The comparison `v >= 1.0` (false on NaN). -/
def dGeOne : DVal → Bool
  | .fin q => decide (1 ≤ q)
  | .posInf => true
  | .negInf => false
  | .nan => false

/-- `a / v` for a representable literal `a` (the code uses
`512 / aspectRatio`): one IEEE rounding of the exact quotient. -/
def dDivOf (a : ℚ) : DVal → DVal
  | .fin q =>
    if q = 0 then (if 0 < a then .posInf else if a < 0 then .negInf else .nan)
    else .fin (fl (a / q))
  | .posInf => .fin 0
  | .negInf => .fin 0
  | .nan => .nan

/-- `a * v` for a representable literal `a` (the code uses
`512 * aspectRatio`): one IEEE rounding of the exact product. -/
def dMulOf (a : ℚ) : DVal → DVal
  | .fin q => .fin (fl (a * q))
  | .posInf => if 0 < a then .posInf else if a < 0 then .negInf else .nan
  | .negInf => if 0 < a then .negInf else if a < 0 then .posInf else .nan
  | .nan => .nan

/-- `static_cast<int>` of a double: truncation toward zero.  On ±∞/NaN the
cast is undefined behaviour in C++; the model returns 0 there and no theorem
relies on that value. -/
def dTruncToInt : DVal → Int
  | .fin q => if 0 ≤ q then ⌊q⌋ else -⌊-q⌋
  | _ => 0

/-- `ImageProcessor::CalculateTelegramSize` (image_processor.cpp lines
55–75), as a pure function `(width, height) ↦ (targetWidth, targetHeight)`. -/
def CalculateTelegramSize (width height : Int) : Int × Int :=
  let aspectRatio := intDiv width height
  if dGeOne aspectRatio then
    (512, dTruncToInt (dDivOf 512 aspectRatio))
  else
    (dTruncToInt (dMulOf 512 aspectRatio), 512)

/-- An in-memory decoded bitmap (`cv::Mat` as the pipeline uses it):
row-major pixel rows, each pixel a list of channel values. -/
structure RasterImage where
  rows : Nat
  cols : Nat
  channels : Nat
  data : List (List (List Nat))
deriving DecidableEq

/-- The alpha-synthesizer block shared verbatim by `ProcessImage` (lines
174–183) and `ProcessAnimation` (lines 250–260): a 3-channel image is split,
an all-255 plane is appended and the 4 planes merged; every other channel
count falls into the `else` branch and is assigned through unchanged. -/
def ensureAlpha (img : RasterImage) : RasterImage :=
  if img.channels = 3 then
    { rows := img.rows, cols := img.cols, channels := 4,
      data := img.data.map (fun row => row.map (fun px => px ++ [255])) }
  else img

/-- `ImageProcessor::ResizeForTelegram`; `resizePrim` models `cv::resize`
with `INTER_LANCZOS4` (an external raster-library capability). -/
def ResizeForTelegram (resizePrim : RasterImage → Int × Int → RasterImage)
    (input : RasterImage) : RasterImage :=
  resizePrim input (CalculateTelegramSize (input.cols : Int) (input.rows : Int))

/-- A giflib color-table entry (`GifColorType`). -/
structure GifColorType where
  red : Nat
  green : Nat
  blue : Nat
deriving DecidableEq

/-- A giflib color table (`ColorMapObject`); `ColorCount` is `colors.length`. -/
structure ColorMapObject where
  colors : List GifColorType
deriving DecidableEq

/-- A slurped giflib frame (`SavedImage` with its `ImageDesc`): dimensions,
optional local color table and the flat palette-index raster. -/
structure SavedImage where
  width : Nat
  height : Nat
  colorMap : Option ColorMapObject
  rasterBits : List Nat
deriving DecidableEq

/-- A successfully opened and slurped gif (`GifFileType` after `DGifSlurp`):
optional global (screen) color table and the frame table. -/
structure GifFileType where
  sColorMap : Option ColorMapObject
  savedImages : List SavedImage
deriving DecidableEq

/-- `ReadGifFirstFrame` (image_processor.cpp lines 104–160) after a
successful open+slurp; the caller models open/slurp failure as `none` input.
Returns `none` where the code returns an empty `cv::Mat`.  `RasterBits` reads
past the buffer and `Colors[0]` of an empty table are undefined behaviour in
C++; the model uses `getD` defaults there and no theorem relies on them. -/
def ReadGifFirstFrame (gif : GifFileType) : Option RasterImage :=
  match gif.savedImages with
  | [] => none  -- ImageCount < 1: no image data
  | image :: _ =>
    let colorMap := match gif.sColorMap with
      | some cm => some cm          -- gif->SColorMap ? gif->SColorMap
      | none => image.colorMap      --   : image->ImageDesc.ColorMap
    match colorMap with
    | none => none  -- no color map in the gif file
    | some cm =>
      some { rows := image.height, cols := image.width, channels := 4,
             data := (List.range image.height).map (fun y =>
               (List.range image.width).map (fun x =>
                 let idx := image.rasterBits.getD (y * image.width + x) 0
                 let idx := if cm.colors.length ≤ idx then 0 else idx
                 let color := cm.colors.getD idx ⟨0, 0, 0⟩
                 [color.blue, color.green, color.red, 255])) }

/-- The two decode strategies available to `ProcessAnimation` for a given
file: what `ReadGifFirstFrame` would yield and what
`cv::imread(path, IMREAD_UNCHANGED)` would yield (`none` = empty result). -/
structure AnimReaders where
  gifResult : Option RasterImage
  cvResult : Option RasterImage

/-- The decode-strategy selection of `ProcessAnimation` (lines 204–212): the
dedicated giflib parser exactly when the extension is `.gif` or `.GIF`
(case-sensitive), otherwise the general-purpose OpenCV reader. -/
def animFirstFrame (readers : AnimReaders) (inputPath : List Char) :
    Option RasterImage :=
  if extensionOf inputPath = ".gif".data ∨ extensionOf inputPath = ".GIF".data then
    readers.gifResult
  else
    readers.cvResult

/-- `ImageProcessor::ProcessAnimation` (lines 197–286); `save` models
`SaveImage` (the external encoder write). -/
def ProcessAnimation (resizePrim : RasterImage → Int × Int → RasterImage)
    (save : RasterImage → Bool) (readers : AnimReaders)
    (inputPath : List Char) : Bool :=
  match animFirstFrame readers inputPath with
  | none => false  -- "Error: cannot read file"
  | some firstFrame =>
    let processedImage := ensureAlpha firstFrame
    let processedImage := ResizeForTelegram resizePrim processedImage
    save processedImage

/-- `ImageProcessor::ProcessImage` (lines 162–195); `imread` models
`cv::imread(path, IMREAD_UNCHANGED)` for this file. -/
def ProcessImage (resizePrim : RasterImage → Int × Int → RasterImage)
    (save : RasterImage → Bool) (imread : Option RasterImage) : Bool :=
  match imread with
  | none => false  -- "Error: cannot read image"
  | some image =>
    let processedImage := ensureAlpha image
    let processedImage := ResizeForTelegram resizePrim processedImage
    save processedImage

/-- One record per processed file (`anysticker::ProcessingResult`). -/
structure ProcessingResult where
  inputPath : List Char
  outputPath : List Char
  success : Bool
  error : List Char
deriving DecidableEq

/-- `anysticker::OutputFormat`. -/
inductive OutputFormat where
  | PNG
  | WEBP
deriving DecidableEq

/-- `anysticker::ProcessingOptions` (the fields the batch path reads). -/
structure ProcessingOptions where
  format : OutputFormat
  quality : Int
  pattern : List Char

/-- A `std::filesystem::directory_iterator` entry: its path and whether it is
a regular file. -/
structure DirEntry where
  path : List Char
  isRegular : Bool

/-- The per-entry wildcard test of `GetMatchingFiles` (lines 312–339):
`"*"` matches everything; `"*.ext"` matches when the lowercased file
extension equals the lowercased `.ext`; any other pattern matches nothing. -/
def matchesPattern (pattern : List Char) (path : List Char) : Bool :=
  if pattern = ['*'] then true
  else
    match pattern with
    | '*' :: '.' :: e :: rest =>
      (('.' :: e :: rest).map asciiToLower) = (extensionOf path).map asciiToLower
    | _ => false

/-- `ImageProcessor::GetMatchingFiles` (lines 301–349): keep the regular
files matching the pattern, sorted by path (`std::sort`; modelled by
insertion sort, which yields the same sorted list). -/
def GetMatchingFiles (entries : List DirEntry) (pattern : List Char) :
    List (List Char) :=
  List.insertionSort (· ≤ ·)
    (((entries.filter (fun e => e.isRegular)).filter
        (fun e => matchesPattern pattern e.path)).map (fun e => e.path))

/-- `path::replace_extension`: drop the current extension, append the new
one. -/
def replaceExtension (f newExt : List Char) : List Char :=
  f.take (f.length - (extensionOf f).length) ++ newExt

/-- The output path built for one input file (lines 372–374):
`outputDir / filename` with the extension replaced by the output format's. -/
def outputPathFor (outputDir file : List Char) (format : OutputFormat) :
    List Char :=
  outputDir ++ '/' ::
    replaceExtension (filenameOf file)
      (if format = OutputFormat.WEBP then ".webp".data else ".png".data)

/-- The observable side-effect steps of `ProcessDirectory`, in execution
order. -/
inductive BatchAction where
  | ensureOutputDir
  | listMatches
  | processFile (p : List Char)
deriving DecidableEq

/-- `ImageProcessor::ProcessDirectory` (lines 351–404).  `createOk` models
the result of `EnsureDirectoryExists(outputDir)` (called first); `procFile`
models the per-file pipeline outcome (`ProcessAnimation`/`ProcessImage` on
input and output path; an exception escaping them is folded into `false`).
The returned trace records which steps ran, in order. -/
def ProcessDirectory (procFile : List Char → List Char → Bool)
    (createOk : Bool) (entries : List DirEntry)
    (inputDir outputDir : List Char) (options : ProcessingOptions) :
    List BatchAction × List ProcessingResult :=
  if createOk = false then
    ([BatchAction.ensureOutputDir],
     [{ inputPath := inputDir, outputPath := outputDir, success := false,
        error := "无法创建输出目录".data }])
  else
    let files := GetMatchingFiles entries options.pattern
    if files = [] then
      ([BatchAction.ensureOutputDir, BatchAction.listMatches],
       [{ inputPath := inputDir, outputPath := outputDir, success := false,
          error := "未找到匹配的文件".data }])
    else
      ([BatchAction.ensureOutputDir, BatchAction.listMatches] ++
         files.map BatchAction.processFile,
       files.map (fun p =>
         let outPath := outputPathFor outputDir p options.format
         let ok := procFile p outPath
         { inputPath := p, outputPath := outPath, success := ok,
           error := if ok then [] else "Processing failed".data }))

/-- A boolean per-pixel predicate check over a whole image. -/
def allPixels (p : List Nat → Bool) (img : RasterImage) : Bool :=
  img.data.all (fun row => row.all p)

/-! ## Helper lemmas -/

lemma log2_floor_spec (x : ℚ) (hx : 1 ≤ x) :
    (2:ℚ) ^ Nat.log 2 ⌊x⌋.toNat ≤ x ∧ x < (2:ℚ) ^ (Nat.log 2 ⌊x⌋.toNat + 1) := by
  have h0 : (1:ℤ) ≤ ⌊x⌋ := by
    rw [Int.le_floor]; exact_mod_cast hx
  have hnz : ⌊x⌋.toNat ≠ 0 := by omega
  have h1 : 2 ^ Nat.log 2 ⌊x⌋.toNat ≤ ⌊x⌋.toNat := Nat.pow_log_le_self 2 hnz
  have h2 : ⌊x⌋.toNat < 2 ^ (Nat.log 2 ⌊x⌋.toNat + 1) :=
    Nat.lt_pow_succ_log_self (by norm_num) _
  have hcast : ((⌊x⌋.toNat : ℤ) : ℚ) = (⌊x⌋ : ℚ) := by
    rw [Int.toNat_of_nonneg (by omega)]
  constructor
  · calc (2:ℚ) ^ Nat.log 2 ⌊x⌋.toNat ≤ ((⌊x⌋.toNat : ℤ) : ℚ) := by exact_mod_cast h1
      _ = (⌊x⌋ : ℚ) := hcast
      _ ≤ x := Int.floor_le x
  · calc x < ⌊x⌋ + 1 := Int.lt_floor_add_one x
      _ ≤ (2:ℚ) ^ (Nat.log 2 ⌊x⌋.toNat + 1) := by
          have h4 : (⌊x⌋ : ℤ) < 2 ^ (Nat.log 2 ⌊x⌋.toNat + 1) := by
            rw [← Int.toNat_of_nonneg (show (0:ℤ) ≤ ⌊x⌋ by omega)]
            exact_mod_cast h2
          have h3 : (⌊x⌋ : ℤ) + 1 ≤ 2 ^ (Nat.log 2 ⌊x⌋.toNat + 1) := by omega
          exact_mod_cast h3

lemma expOf_spec (q : ℚ) (hq : 0 < q) :
    (2:ℚ) ^ expOf q ≤ q ∧ q < (2:ℚ) ^ (expOf q + 1) := by
  unfold expOf
  by_cases h1 : 1 ≤ q
  · obtain ⟨ha, hb⟩ := log2_floor_spec q h1
    rw [if_pos h1]
    constructor
    · rw [zpow_natCast]; exact ha
    · rw [show ((Nat.log 2 ⌊q⌋.toNat : ℤ) + 1) = ((Nat.log 2 ⌊q⌋.toNat + 1 : ℕ) : ℤ) by
        push_cast; ring, zpow_natCast]
      exact hb
  · have hlt : q < 1 := not_le.mp h1
    have hr : 1 ≤ 1/q := by
      rw [le_div_iff₀ hq]; linarith
    obtain ⟨ha, hb⟩ := log2_floor_spec (1/q) hr
    rw [if_neg h1]
    set f := Nat.log 2 ⌊1/q⌋.toNat with hf
    have hp : (0:ℚ) < 2 ^ f := by positivity
    have hp1 : (0:ℚ) < 2 ^ (f + 1) := by positivity
    have hqa : q ≤ (2:ℚ) ^ (-(f:ℤ)) := by
      rw [zpow_neg, zpow_natCast, ← one_div, le_div_iff₀ hp]
      calc q * 2 ^ f ≤ q * (1/q) := mul_le_mul_of_nonneg_left ha hq.le
        _ = 1 := by field_simp
    have hqb : (2:ℚ) ^ (-(f:ℤ) - 1) < q := by
      have h5 : (1:ℚ) < 2 ^ (f+1) * q := by
        have h6 := (div_lt_iff₀ hq).mp hb
        linarith
      rw [show (-(f:ℤ) - 1) = -((f:ℤ) + 1) by ring, zpow_neg,
        show ((f:ℤ) + 1) = ((f + 1 : ℕ) : ℤ) by push_cast; ring, zpow_natCast,
        ← one_div, div_lt_iff₀ hp1]
      linarith
    by_cases h2 : (2:ℚ) ^ (-(f:ℤ)) ≤ q
    · rw [if_pos h2]
      have heq : q = (2:ℚ) ^ (-(f:ℤ)) := le_antisymm hqa h2
      refine ⟨h2, ?_⟩
      rw [heq]
      exact zpow_lt_zpow_right₀ (by norm_num) (by omega)
    · rw [if_neg h2]
      refine ⟨hqb.le, ?_⟩
      rw [show (-(f:ℤ) - 1 + 1) = -(f:ℤ) by ring]
      exact not_le.mp h2

lemma rnd_bounds (s : ℚ) :
    ⌊s⌋ ≤ rnd s ∧ rnd s ≤ ⌊s⌋ + 1 ∧ |(rnd s : ℚ) - s| ≤ 1/2 := by
  have h1 : (⌊s⌋:ℚ) ≤ s := Int.floor_le s
  have h2 : s < ⌊s⌋ + 1 := Int.lt_floor_add_one s
  unfold rnd
  split_ifs with ha hb hc
  · refine ⟨by omega, by omega, ?_⟩
    rw [abs_le]; push_cast; constructor <;> linarith
  · refine ⟨le_refl _, by omega, ?_⟩
    rw [abs_le]; constructor <;> linarith
  · push_neg at ha hb
    refine ⟨le_refl _, by omega, ?_⟩
    rw [abs_le]; constructor <;> linarith
  · push_neg at ha hb
    refine ⟨by omega, by omega, ?_⟩
    rw [abs_le]; push_cast; constructor <;> linarith

lemma flPos_facts (q : ℚ) (hq : 0 < q) :
    |flPos q - q| ≤ q / 2 ^ 53 ∧
    (2:ℚ) ^ expOf q ≤ flPos q ∧ flPos q ≤ (2:ℚ) ^ (expOf q + 1) := by
  obtain ⟨he1, he2⟩ := expOf_spec q hq
  set e := expOf q with he
  set s := q * (2:ℚ) ^ ((52:Int) - e) with hs
  have h2 : (2:ℚ) ≠ 0 := by norm_num
  have hpow : (0:ℚ) < (2:ℚ) ^ ((52:Int) - e) := by positivity
  have hpow2 : (0:ℚ) < (2:ℚ) ^ (e - (52:Int)) := by positivity
  have hs_lb : (2:ℚ) ^ (52:Int) ≤ s := by
    calc (2:ℚ) ^ (52:Int) = (2:ℚ) ^ e * (2:ℚ) ^ ((52:Int) - e) := by
          rw [← zpow_add₀ h2]; ring_nf
      _ ≤ q * (2:ℚ) ^ ((52:Int) - e) := mul_le_mul_of_nonneg_right he1 hpow.le
  have hs_ub : s < (2:ℚ) ^ (53:Int) := by
    calc s < (2:ℚ) ^ (e + 1) * (2:ℚ) ^ ((52:Int) - e) := by
          rw [hs]; exact mul_lt_mul_of_pos_right he2 hpow
      _ = (2:ℚ) ^ (53:Int) := by rw [← zpow_add₀ h2]; ring_nf
  obtain ⟨hr1, hr2, hr3⟩ := rnd_bounds s
  have hback : s * (2:ℚ) ^ (e - (52:Int)) = q := by
    rw [hs, mul_assoc, ← zpow_add₀ h2]
    norm_num
  have hfl : flPos q = (rnd s : ℚ) * (2:ℚ) ^ (e - (52:Int)) := rfl
  have hm_lb : ((2:ℤ) ^ 52 : ℤ) ≤ rnd s := by
    have hfloor : ((2:ℤ) ^ 52 : ℤ) ≤ ⌊s⌋ := by
      rw [Int.le_floor]
      calc (((2:ℤ) ^ 52 : ℤ) : ℚ) = (2:ℚ) ^ (52:Int) := by norm_num
        _ ≤ s := hs_lb
    omega
  have hm_ub : rnd s ≤ ((2:ℤ) ^ 53 : ℤ) := by
    have hfloor : ⌊s⌋ < ((2:ℤ) ^ 53 : ℤ) := by
      rw [Int.floor_lt]
      calc s < (2:ℚ) ^ (53:Int) := hs_ub
        _ = (((2:ℤ) ^ 53 : ℤ) : ℚ) := by norm_num
    omega
  refine ⟨?_, ?_, ?_⟩
  · have hd : flPos q - q = ((rnd s : ℚ) - s) * (2:ℚ) ^ (e - (52:Int)) := by
      rw [hfl, sub_mul, hback]
    rw [hd, abs_mul, abs_of_pos hpow2]
    have step1 : (1/2) * (2:ℚ) ^ (e - (52:Int)) = (2:ℚ) ^ (e - (53:Int)) := by
      rw [show e - (53:Int) = (e - 52) + (-1) by ring, zpow_add₀ h2, zpow_neg, zpow_one]
      ring
    have step2 : (2:ℚ) ^ (e - (53:Int)) ≤ q / 2 ^ 53 := by
      rw [zpow_sub₀ h2, div_le_div_iff₀ (by positivity) (by positivity)]
      have hn : (2:ℚ) ^ ((53:Int)) = 2 ^ (53:ℕ) := by norm_num
      rw [hn]
      exact mul_le_mul_of_nonneg_right he1 (by positivity)
    calc |(rnd s : ℚ) - s| * (2:ℚ) ^ (e - (52:Int))
        ≤ (1/2) * (2:ℚ) ^ (e - (52:Int)) := mul_le_mul_of_nonneg_right hr3 hpow2.le
      _ = (2:ℚ) ^ (e - (53:Int)) := step1
      _ ≤ q / 2 ^ 53 := step2
  · rw [hfl]
    calc (2:ℚ) ^ e = (2:ℚ) ^ (52:Int) * (2:ℚ) ^ (e - (52:Int)) := by
          rw [← zpow_add₀ h2]; ring_nf
      _ ≤ (rnd s : ℚ) * (2:ℚ) ^ (e - (52:Int)) := by
          apply mul_le_mul_of_nonneg_right _ hpow2.le
          calc (2:ℚ) ^ (52:Int) = (((2:ℤ) ^ 52 : ℤ) : ℚ) := by norm_num
            _ ≤ (rnd s : ℚ) := by exact_mod_cast hm_lb
  · rw [hfl]
    calc (rnd s : ℚ) * (2:ℚ) ^ (e - (52:Int))
        ≤ (2:ℚ) ^ (53:Int) * (2:ℚ) ^ (e - (52:Int)) := by
          apply mul_le_mul_of_nonneg_right _ hpow2.le
          calc (rnd s : ℚ) ≤ (((2:ℤ) ^ 53 : ℤ) : ℚ) := by exact_mod_cast hm_ub
            _ = (2:ℚ) ^ (53:Int) := by norm_num
      _ = (2:ℚ) ^ (e + 1) := by rw [← zpow_add₀ h2]; ring_nf


lemma flPos_pos (q : ℚ) (hq : 0 < q) : 0 < flPos q :=
  lt_of_lt_of_le (by positivity) (flPos_facts q hq).2.1

lemma expOf_pow (k : Int) : expOf ((2:ℚ) ^ k) = k := by
  have hq : (0:ℚ) < 2 ^ k := by positivity
  obtain ⟨h1, h2⟩ := expOf_spec ((2:ℚ) ^ k) hq
  have ha : expOf ((2:ℚ) ^ k) ≤ k := by
    by_contra hcon
    push_neg at hcon
    have h3 : (2:ℚ) ^ (k + 1) ≤ (2:ℚ) ^ expOf ((2:ℚ) ^ k) :=
      zpow_le_zpow_right₀ (by norm_num) (by omega)
    have h4 : (2:ℚ) ^ k < (2:ℚ) ^ (k + 1) :=
      zpow_lt_zpow_right₀ (by norm_num) (by omega)
    linarith
  have hb : k ≤ expOf ((2:ℚ) ^ k) := by
    by_contra hcon
    push_neg at hcon
    have h3 : (2:ℚ) ^ (expOf ((2:ℚ) ^ k) + 1) ≤ (2:ℚ) ^ k :=
      zpow_le_zpow_right₀ (by norm_num) (by omega)
    linarith
  omega

lemma rnd_intCast (n : ℤ) : rnd ((n : ℚ)) = n := by
  unfold rnd
  rw [Int.floor_intCast]
  norm_num

lemma flPos_pow (k : Int) : flPos ((2:ℚ) ^ k) = (2:ℚ) ^ k := by
  have h2 : (2:ℚ) ≠ 0 := by norm_num
  unfold flPos
  rw [expOf_pow]
  have hs : (2:ℚ) ^ k * (2:ℚ) ^ ((52:Int) - k) = (2:ℚ) ^ (52:Int) := by
    rw [← zpow_add₀ h2]; ring_nf
  rw [hs]
  have hi : (2:ℚ) ^ (52:Int) = (((2:ℤ) ^ 52 : ℤ) : ℚ) := by norm_num
  rw [hi, rnd_intCast]
  rw [show ((((2:ℤ) ^ 52 : ℤ)) : ℚ) = (2:ℚ) ^ (52:Int) from hi.symm, ← zpow_add₀ h2]
  ring_nf

lemma flPos_le_pow (q : ℚ) (k : Int) (hq : 0 < q) (h : q ≤ (2:ℚ) ^ k) :
    flPos q ≤ (2:ℚ) ^ k := by
  rcases eq_or_lt_of_le h with heq | hlt
  · rw [heq, flPos_pow]
  · have hub := (flPos_facts q hq).2.2
    obtain ⟨h1, _⟩ := expOf_spec q hq
    have he : expOf q + 1 ≤ k := by
      by_contra hcon
      push_neg at hcon
      have h3 : (2:ℚ) ^ k ≤ (2:ℚ) ^ expOf q :=
        zpow_le_zpow_right₀ (by norm_num) (by omega)
      linarith
    calc flPos q ≤ (2:ℚ) ^ (expOf q + 1) := hub
      _ ≤ (2:ℚ) ^ k := zpow_le_zpow_right₀ (by norm_num) he

lemma flPos_le_512 (q : ℚ) (hq : 0 < q) (h : q ≤ 512) : flPos q ≤ 512 := by
  have h9 : ((2:ℚ) ^ (9:Int)) = 512 := by norm_num
  calc flPos q ≤ (2:ℚ) ^ (9:Int) := flPos_le_pow q 9 hq (by rw [h9]; exact h)
    _ = 512 := h9

lemma flPos_ge_one (q : ℚ) (h : 1 ≤ q) : 1 ≤ flPos q := by
  have hq : (0:ℚ) < q := by linarith
  obtain ⟨h1, h2⟩ := expOf_spec q hq
  have he : 0 ≤ expOf q := by
    by_contra hcon
    push_neg at hcon
    have h3 : (2:ℚ) ^ (expOf q + 1) ≤ (2:ℚ) ^ (0:Int) :=
      zpow_le_zpow_right₀ (by norm_num) (by omega)
    simp at h3
    linarith
  calc (1:ℚ) = (2:ℚ) ^ (0:Int) := by norm_num
    _ ≤ (2:ℚ) ^ expOf q := zpow_le_zpow_right₀ (by norm_num) he
    _ ≤ flPos q := (flPos_facts q hq).2.1

lemma flPos_lt_one (q : ℚ) (hq : 0 < q) (h : q ≤ 1 - 1/2^31) : flPos q < 1 := by
  obtain ⟨h1, h2⟩ := expOf_spec q hq
  have hq1 : q < 1 := by nlinarith
  have he : expOf q ≤ -1 := by
    by_contra hcon
    push_neg at hcon
    have h3 : (2:ℚ) ^ (0:Int) ≤ (2:ℚ) ^ expOf q :=
      zpow_le_zpow_right₀ (by norm_num) (by omega)
    simp at h3
    linarith
  by_cases hem : expOf q = -1
  · have hfl : flPos q = (rnd (q * (2:ℚ) ^ ((52:Int) - expOf q)) : ℚ) *
        (2:ℚ) ^ (expOf q - 52) := rfl
    rw [hfl, hem, show ((52:Int) - (-1)) = 53 by norm_num,
      show ((-1:Int) - 52) = -53 by norm_num]
    set s := q * (2:ℚ) ^ ((53:Int)) with hs
    obtain ⟨hr1, hr2, hr3⟩ := rnd_bounds s
    have hfs : (⌊s⌋:ℚ) ≤ s := Int.floor_le s
    have hsub : s ≤ (1 - 1/2^31) * (2:ℚ) ^ ((53:Int)) := by
      rw [hs]
      apply mul_le_mul_of_nonneg_right h (by positivity)
    have hrq : (rnd s : ℚ) ≤ s + 1 := by
      calc (rnd s : ℚ) ≤ ((⌊s⌋ + 1 : ℤ) : ℚ) := by exact_mod_cast hr2
        _ = (⌊s⌋:ℚ) + 1 := by push_cast; ring
        _ ≤ s + 1 := by linarith
    have hfin : (rnd s : ℚ) ≤ (1 - 1/2^31) * (2:ℚ) ^ ((53:Int)) + 1 := by linarith
    calc (rnd s : ℚ) * (2:ℚ) ^ (-53:Int)
        ≤ ((1 - 1/2^31) * (2:ℚ) ^ ((53:Int)) + 1) * (2:ℚ) ^ (-53:Int) := by
          apply mul_le_mul_of_nonneg_right hfin (by positivity)
      _ < 1 := by
          rw [zpow_neg, ← div_eq_mul_inv, div_lt_one (by positivity)]
          norm_num
  · have he2 : expOf q + 1 ≤ -1 := by omega
    have hub := (flPos_facts q hq).2.2
    calc flPos q ≤ (2:ℚ) ^ (expOf q + 1) := hub
      _ ≤ (2:ℚ) ^ (-1:Int) := zpow_le_zpow_right₀ (by norm_num) he2
      _ < 1 := by norm_num

lemma fl_of_pos (q : ℚ) (hq : 0 < q) : fl q = flPos q := by
  unfold fl
  rw [if_neg hq.ne', if_pos hq]


set_option maxHeartbeats 1000000 in
lemma fl_div_bounds (q : ℚ) (hq : 1 ≤ q) :
    512/q - 1 < flPos (512 / flPos q) ∧ flPos (512 / flPos q) < 512/q + 1 ∧
    0 < flPos (512 / flPos q) ∧ flPos (512 / flPos q) ≤ 512 := by
  have hq0 : (0:ℚ) < q := by linarith
  have ha_pos : 0 < flPos q := flPos_pos q hq0
  have ha1 : 1 ≤ flPos q := flPos_ge_one q hq
  have haq : |flPos q - q| ≤ q / 2^53 := (flPos_facts q hq0).1
  set a := flPos q with hadef
  have hx_pos : (0:ℚ) < 512 / a := by positivity
  have hx_le : 512 / a ≤ 512 := by
    rw [div_le_iff₀ ha_pos]
    nlinarith
  have hv_pos : 0 < flPos (512/a) := flPos_pos _ hx_pos
  have hv_le : flPos (512/a) ≤ 512 := flPos_le_512 _ hx_pos hx_le
  have hv_err : |flPos (512/a) - 512/a| ≤ (512/a)/2^53 := (flPos_facts _ hx_pos).1
  rw [abs_le] at haq hv_err
  set v := flPos (512/a) with hvdef
  have hxa : (512/a) * a = 512 := div_mul_cancel₀ 512 ha_pos.ne'
  have ha_ub : a ≤ q * (1 + 1/2^53) := by linarith [haq.2]
  have ha_lb : q * (1 - 1/2^53) ≤ a := by linarith [haq.1]
  refine ⟨?_, ?_, hv_pos, hv_le⟩
  · -- lower bound: 512/q - 1 < v
    have k0 : (512/a) * (1 - 1/2^53) ≤ v := by linarith [hv_err.1]
    have k1 : 512 * (1 - 1/2^53) ≤ v * a := by
      calc 512 * (1 - 1/2^53) = ((512/a) * (1 - 1/2^53)) * a := by
            rw [show ((512/a) * (1 - 1/2^53)) * a = ((512/a) * a) * (1 - 1/2^53) by ring,
              hxa]
        _ ≤ v * a := mul_le_mul_of_nonneg_right k0 ha_pos.le
    have k2 : v * a ≤ v * (q * (1 + 1/2^53)) :=
      mul_le_mul_of_nonneg_left ha_ub hv_pos.le
    have k3 : (512 - q) * (1 + 1/2^53) < 512 * (1 - 1/2^53) := by
      have hx : (512 - q) * (1 + 1/2^53) = 512 + 512 * (1/2^53) - q - q * (1/2^53) := by
        ring
      rw [hx]
      linarith
    have k4 : (512 - q) * (1 + 1/2^53) < (v * q) * (1 + 1/2^53) := by
      have hx : v * (q * (1 + 1/2^53)) = (v * q) * (1 + 1/2^53) := by ring
      rw [hx] at k2
      linarith
    have k5 : 512 - q < v * q :=
      lt_of_mul_lt_mul_right k4 (by norm_num)
    rw [sub_lt_iff_lt_add, div_lt_iff₀ hq0]
    linarith [k5]
  · -- upper bound: v < 512/q + 1
    have k0 : v ≤ (512/a) * (1 + 1/2^53) := by linarith [hv_err.2]
    have k1 : v * a ≤ 512 * (1 + 1/2^53) := by
      calc v * a ≤ ((512/a) * (1 + 1/2^53)) * a := mul_le_mul_of_nonneg_right k0 ha_pos.le
        _ = ((512/a) * a) * (1 + 1/2^53) := by ring
        _ = 512 * (1 + 1/2^53) := by rw [hxa]
    have k2 : v * (q * (1 - 1/2^53)) ≤ v * a :=
      mul_le_mul_of_nonneg_left ha_lb hv_pos.le
    have k3 : 512 * (1 + 1/2^53) < (512 + q) * (1 - 1/2^53) := by
      have hx : (512 + q) * (1 - 1/2^53) = 512 + q - 512 * (1/2^53) - q * (1/2^53) := by
        ring
      rw [hx]
      linarith
    have k4 : (v * q) * (1 - 1/2^53) < (512 + q) * (1 - 1/2^53) := by
      have hx : v * (q * (1 - 1/2^53)) = (v * q) * (1 - 1/2^53) := by ring
      rw [hx] at k2
      linarith
    have k5 : v * q < 512 + q :=
      lt_of_mul_lt_mul_right k4 (by norm_num)
    have hgoal : 512 < (v + 1) * q := by nlinarith [k5, hq0]
    rw [show 512/q + 1 = (512 + q)/q by field_simp, lt_div_iff₀ hq0] at *
    nlinarith [k5, hq0]

set_option maxHeartbeats 1000000 in
lemma fl_mul_bounds (q : ℚ) (hq : 0 < q) (hub : q ≤ 1 - 1/2^31) :
    512*q - 1 < flPos (512 * flPos q) ∧ flPos (512 * flPos q) < 512*q + 1 ∧
    0 < flPos (512 * flPos q) ∧ flPos (512 * flPos q) ≤ 512 := by
  have ha_pos : 0 < flPos q := flPos_pos q hq
  have ha1 : flPos q < 1 := flPos_lt_one q hq hub
  have haq : |flPos q - q| ≤ q / 2^53 := (flPos_facts q hq).1
  set a := flPos q with hadef
  have hx_pos : (0:ℚ) < 512 * a := by positivity
  have hx_le : 512 * a ≤ 512 := by nlinarith
  have hv_pos : 0 < flPos (512*a) := flPos_pos _ hx_pos
  have hv_le : flPos (512*a) ≤ 512 := flPos_le_512 _ hx_pos hx_le
  have hv_err : |flPos (512*a) - 512*a| ≤ (512*a)/2^53 := (flPos_facts _ hx_pos).1
  rw [abs_le] at haq hv_err
  set v := flPos (512*a) with hvdef
  have ha_ub : a ≤ q * (1 + 1/2^53) := by linarith [haq.2]
  have ha_lb : q * (1 - 1/2^53) ≤ a := by linarith [haq.1]
  have hq1 : q < 1 := by nlinarith
  refine ⟨?_, ?_, hv_pos, hv_le⟩
  · have k0 : (512*a) * (1 - 1/2^53) ≤ v := by linarith [hv_err.1]
    have k1 : (512 * (q * (1 - 1/2^53))) * (1 - 1/2^53) ≤ (512*a) * (1 - 1/2^53) := by
      have h5 : 512 * (q * (1 - 1/2^53)) ≤ 512 * a := by linarith [ha_lb]
      exact mul_le_mul_of_nonneg_right h5 (by norm_num)
    have k2 : 512*q - 1 < (512 * (q * (1 - 1/2^53))) * (1 - 1/2^53) := by
      have hx : (512 * (q * (1 - 1/2^53))) * (1 - 1/2^53) =
          512*q - 1024 * (q * (1/2^53)) + 512 * (q * (1/2^53) * (1/2^53)) := by ring
      rw [hx]
      have h6 : q * (1/2^53) < 1/2^53 := by linarith [hq1]
      have h7 : 0 ≤ q * (1/2^53) * (1/2^53) := by positivity
      linarith
    linarith
  · have k0 : v ≤ (512*a) * (1 + 1/2^53) := by linarith [hv_err.2]
    have k1 : (512*a) * (1 + 1/2^53) ≤ (512 * (q * (1 + 1/2^53))) * (1 + 1/2^53) := by
      have h5 : 512 * a ≤ 512 * (q * (1 + 1/2^53)) := by linarith [ha_ub]
      exact mul_le_mul_of_nonneg_right h5 (by norm_num)
    have k2 : (512 * (q * (1 + 1/2^53))) * (1 + 1/2^53) < 512*q + 1 := by
      have hx : (512 * (q * (1 + 1/2^53))) * (1 + 1/2^53) =
          512*q + 1024 * (q * (1/2^53)) + 512 * (q * (1/2^53) * (1/2^53)) := by ring
      rw [hx]
      have h6 : q * (1/2^53) < 1/2^53 := by linarith [hq1]
      have h7 : q * (1/2^53) * (1/2^53) < (1/2^53) * (1/2^53) := by
        have := mul_lt_mul_of_pos_right h6 (show (0:ℚ) < 1/2^53 by norm_num)
        linarith [this]
      linarith
    linarith

lemma floor_dist_le_one (v ex : ℚ) (h1 : ex - 1 < v) (h2 : v < ex + 1) :
    |⌊v⌋ - ⌊ex⌋| ≤ 1 := by
  have l1 : ⌊ex - 1⌋ ≤ ⌊v⌋ := Int.floor_le_floor h1.le
  have l2 : ⌊v⌋ ≤ ⌊ex + 1⌋ := Int.floor_le_floor h2.le
  rw [show (ex - 1) = ex + ((-1 : ℤ) : ℚ) by push_cast; ring, Int.floor_add_int] at l1
  rw [show (ex + 1) = ex + ((1 : ℤ) : ℚ) by push_cast; ring, Int.floor_add_int] at l2
  rw [abs_le]
  omega


lemma calc_wide (w h : Int) (hw : 0 < w) (hh : 0 < h) (hwh : h ≤ w) :
    CalculateTelegramSize w h = (512, ⌊flPos (512 / flPos ((w:ℚ)/(h:ℚ)))⌋) := by
  have hhq : (0:ℚ) < (h:ℚ) := by exact_mod_cast hh
  have hwq : (0:ℚ) < (w:ℚ) := by exact_mod_cast hw
  have hq0 : (0:ℚ) < (w:ℚ)/(h:ℚ) := by positivity
  have hq1 : (1:ℚ) ≤ (w:ℚ)/(h:ℚ) := by
    rw [le_div_iff₀ hhq]
    have : (h:ℚ) ≤ (w:ℚ) := by exact_mod_cast hwh
    linarith
  have hdiv : intDiv w h = DVal.fin (flPos ((w:ℚ)/(h:ℚ))) := by
    unfold intDiv
    rw [if_neg hh.ne', fl_of_pos _ hq0]
  have ha1 : 1 ≤ flPos ((w:ℚ)/(h:ℚ)) := flPos_ge_one _ hq1
  have ha0 : flPos ((w:ℚ)/(h:ℚ)) ≠ 0 := by
    have := flPos_pos _ hq0
    linarith
  have hge : dGeOne (DVal.fin (flPos ((w:ℚ)/(h:ℚ)))) = true := by
    simp [dGeOne]
    linarith
  have hx : (0:ℚ) < 512 / flPos ((w:ℚ)/(h:ℚ)) := by
    have := flPos_pos ((w:ℚ)/(h:ℚ)) hq0
    positivity
  have hv : (0:ℚ) < flPos (512 / flPos ((w:ℚ)/(h:ℚ))) := flPos_pos _ hx
  unfold CalculateTelegramSize
  rw [hdiv]
  dsimp only
  rw [hge, if_pos rfl]
  simp only [dDivOf, dTruncToInt]
  rw [if_neg ha0, fl_of_pos _ hx]
  simp only [dTruncToInt]
  rw [if_pos hv.le]

lemma calc_tall (w h : Int) (hw : 0 < w) (hh : 0 < h) (hwh : w < h) (hhB : h < 2^31) :
    CalculateTelegramSize w h = (⌊flPos (512 * flPos ((w:ℚ)/(h:ℚ)))⌋, 512) := by
  have hhq : (0:ℚ) < (h:ℚ) := by exact_mod_cast hh
  have hwq : (0:ℚ) < (w:ℚ) := by exact_mod_cast hw
  have hq0 : (0:ℚ) < (w:ℚ)/(h:ℚ) := by positivity
  have hqub : (w:ℚ)/(h:ℚ) ≤ 1 - 1/2^31 := by
    rw [div_le_iff₀ hhq]
    have h1 : (w:ℚ) + 1 ≤ (h:ℚ) := by exact_mod_cast hwh
    have h2 : (h:ℚ) ≤ 2^31 := by
      have : (h:ℚ) ≤ ((2^31 : ℤ) : ℚ) := by exact_mod_cast hhB.le
      calc (h:ℚ) ≤ ((2^31 : ℤ) : ℚ) := this
        _ = 2^31 := by norm_num
    have hx : (1 - 1/2^31) * (h:ℚ) = (h:ℚ) - (h:ℚ) * (1/2^31) := by ring
    rw [hx]
    have h3 : (h:ℚ) * (1/2^31) ≤ 2^31 * (1/2^31) :=
      mul_le_mul_of_nonneg_right h2 (by norm_num)
    have h4 : (2:ℚ)^31 * (1/2^31) = 1 := by norm_num
    linarith
  have hdiv : intDiv w h = DVal.fin (flPos ((w:ℚ)/(h:ℚ))) := by
    unfold intDiv
    rw [if_neg hh.ne', fl_of_pos _ hq0]
  have ha1 : flPos ((w:ℚ)/(h:ℚ)) < 1 := flPos_lt_one _ hq0 hqub
  have hge : dGeOne (DVal.fin (flPos ((w:ℚ)/(h:ℚ)))) = false := by
    simp [dGeOne]
    linarith
  have hx : (0:ℚ) < 512 * flPos ((w:ℚ)/(h:ℚ)) := by
    have := flPos_pos ((w:ℚ)/(h:ℚ)) hq0
    positivity
  have hv : (0:ℚ) < flPos (512 * flPos ((w:ℚ)/(h:ℚ))) := flPos_pos _ hx
  unfold CalculateTelegramSize
  rw [hdiv]
  dsimp only
  rw [hge, if_neg (by decide : ¬(false = true))]
  simp only [dMulOf]
  rw [fl_of_pos _ hx]
  simp only [dTruncToInt]
  rw [if_pos hv.le]

lemma flPos_one : flPos 1 = 1 := by
  have h := flPos_pow 0
  norm_num at h
  exact h

lemma flPos_512 : flPos 512 = 512 := by
  have h := flPos_pow 9
  norm_num at h
  exact h

lemma calc_one_one : CalculateTelegramSize 1 1 = (512, 512) := by
  rw [calc_wide 1 1 (by norm_num) (by norm_num) (by norm_num)]
  norm_num [flPos_one, flPos_512]

lemma log2_five : Nat.log 2 5 = 2 :=
  Nat.log_eq_of_pow_le_of_lt_pow (by norm_num) (by norm_num)

lemma log2_ninetytwo : Nat.log 2 92 = 6 :=
  Nat.log_eq_of_pow_le_of_lt_pow (by norm_num) (by norm_num)

lemma expOf_q93 : expOf ((512:ℚ)/93) = 2 := by
  have hfq : ⌊(512:ℚ)/93⌋ = 5 := by
    rw [Int.floor_eq_iff]
    norm_num
  unfold expOf
  rw [if_pos (by norm_num : (1:ℚ) ≤ 512/93), hfq,
    show (5:ℤ).toNat = 5 by rfl, log2_five]
  norm_num

lemma flPos_q93 : flPos ((512:ℚ)/93) = 3099251356470019 / 562949953421312 := by
  have hs : ((512:ℚ)/93) * (2:ℚ)^((52:Int) - 2) = 576460752303423488/93 := by
    norm_num
  have hsf : ⌊(576460752303423488/93 : ℚ)⌋ = 6198502712940037 := by
    rw [Int.floor_eq_iff]
    norm_num
  unfold flPos rnd
  rw [expOf_q93, hs, hsf, if_pos (by norm_num)]
  norm_num

lemma expOf_x93 : expOf ((288230376151711744:ℚ)/3099251356470019) = 6 := by
  have hxf : ⌊(288230376151711744:ℚ)/3099251356470019⌋ = 92 := by
    rw [Int.floor_eq_iff]
    norm_num
  unfold expOf
  rw [if_pos (by norm_num : (1:ℚ) ≤ 288230376151711744/3099251356470019), hxf,
    show (92:ℤ).toNat = 92 by rfl, log2_ninetytwo]
  norm_num

lemma flPos_x93 :
    flPos ((288230376151711744:ℚ)/3099251356470019) =
      6544293208522751 / 70368744177664 := by
  have hs : ((288230376151711744:ℚ)/3099251356470019) * (2:ℚ)^((52:Int) - 6) =
      20282409603651670423947251286016/3099251356470019 := by
    norm_num
  have hsf : ⌊(20282409603651670423947251286016/3099251356470019 : ℚ)⌋ =
      6544293208522751 := by
    rw [Int.floor_eq_iff]
    norm_num
  unfold flPos rnd
  rw [expOf_x93, hs, hsf, if_neg (by norm_num), if_pos (by norm_num)]
  norm_num

lemma calc_512_93 : CalculateTelegramSize 512 93 = (512, 92) := by
  rw [calc_wide 512 93 (by norm_num) (by norm_num) (by norm_num)]
  rw [show (((512:Int):ℚ)/((93:Int):ℚ)) = (512:ℚ)/93 by norm_num, flPos_q93]
  rw [show (512:ℚ) / (3099251356470019 / 562949953421312) =
    (288230376151711744:ℚ)/3099251356470019 by norm_num, flPos_x93]
  have hff : ⌊(6544293208522751:ℚ) / 70368744177664⌋ = 92 := by
    rw [Int.floor_eq_iff]
    norm_num
  rw [hff]

lemma allPixels_gifFrame (image : SavedImage) (cm : ColorMapObject) :
    allPixels (fun px => px.length == 4 && px.getLast? == some 255)
      { rows := image.height, cols := image.width, channels := 4,
        data := (List.range image.height).map (fun y =>
          (List.range image.width).map (fun x =>
            let idx := image.rasterBits.getD (y * image.width + x) 0
            let idx2 := if cm.colors.length ≤ idx then 0 else idx
            let color := cm.colors.getD idx2 ⟨0, 0, 0⟩
            [color.blue, color.green, color.red, 255])) } = true := by
  simp only [allPixels, List.all_eq_true]
  intro row hrow
  simp only [List.mem_map] at hrow
  obtain ⟨y, _, rfl⟩ := hrow
  intro px hpx
  simp only [List.mem_map] at hpx
  obtain ⟨x, _, rfl⟩ := hpx
  rfl

/-! ## Theorems -/

/-- Claim C8: `EnsureAlpha` (the alpha-synthesizer block) is idempotent: for every
RasterImage, applying it twice yields the same image as applying it once. -/
theorem ensureAlpha_idempotent (img : RasterImage) :
    ensureAlpha (ensureAlpha img) = ensureAlpha img := by
  by_cases h : img.channels = 3 <;> simp [ensureAlpha, h]

/-- Claim C9: every path whose extension lowercases to `.gif` is classified as
animated by `IsAnimatedImage`, for every file-content oracle (so
independently of the file's frame count or readability); the matching is
case-insensitive because the extension is lowercased first. -/
theorem isAnimatedImage_gif_extension
    (fileBytes : List Char → Option (List Nat)) (path : List Char)
    (h : (extensionOf path).map asciiToLower = ".gif".data) :
    IsAnimatedImage fileBytes path = true := by
  simp [IsAnimatedImage, h]

/-- Claim C9 witness: `sticker.GiF` is classified animated even though the file
cannot be opened at all. -/
theorem isAnimatedImage_gif_extension_witness :
    IsAnimatedImage (fun _ => none) "sticker.GiF".data = true :=
  isAnimatedImage_gif_extension (fun _ => none) "sticker.GiF".data (by decide)

/-- Claim C10: a path whose extension lowercases to `.gif` but is neither exactly
`.gif` nor exactly `.GIF` is classified animated by the sniffer, yet
`ProcessAnimation`'s case-sensitive comparison does not route it to the
dedicated giflib parser: its first frame comes from the general-purpose
reader. -/
theorem gif_sniffer_routing_mismatch
    (fileBytes : List Char → Option (List Nat)) (path : List Char)
    (readers : AnimReaders)
    (hl : (extensionOf path).map asciiToLower = ".gif".data)
    (h1 : extensionOf path ≠ ".gif".data)
    (h2 : extensionOf path ≠ ".GIF".data) :
    IsAnimatedImage fileBytes path = true ∧
      animFirstFrame readers path = readers.cvResult := by
  constructor
  · simp [IsAnimatedImage, hl]
  · simp [animFirstFrame, h1, h2]

/-- Claim C10 witness: `x.Gif` is sniffed as animated but decoded through the
general reader (`cvResult`), not giflib. -/
theorem gif_sniffer_routing_mismatch_witness :
    IsAnimatedImage (fun _ => none) "x.Gif".data = true ∧
      animFirstFrame { gifResult := none, cvResult := none } "x.Gif".data =
        (AnimReaders.mk none none).cvResult :=
  gif_sniffer_routing_mismatch (fun _ => none) "x.Gif".data
    { gifResult := none, cvResult := none } (by decide) (by decide) (by decide)

/-- Claim C3 counterexample: a 1-channel image is passed through the
alpha-synthesizer block unchanged — no `UnsupportedFormatError` exists in the
code, and the output does not have 4 channels, refuting the claim that any
channel count other than 3 or 4 is an error. -/
theorem ensureAlpha_singleChannel_counterexample :
    ensureAlpha { rows := 2, cols := 1, channels := 1,
                  data := [[[5]], [[6]]] } =
      { rows := 2, cols := 1, channels := 1, data := [[[5]], [[6]]] } ∧
    (ensureAlpha { rows := 2, cols := 1, channels := 1,
                   data := [[[5]], [[6]]] }).channels ≠ 4 := by
  constructor <;> decide

/-- Claim C3 (amended): a 3-channel input gains a constant-255 alpha value appended
to every pixel (giving 4 channels, same dimensions); every other channel
count — 4, but also 1 or 2 — is passed through unchanged; no error is
raised. -/
theorem ensureAlpha_channels_spec (img : RasterImage) :
    (img.channels = 3 →
      (ensureAlpha img).channels = 4 ∧
      (ensureAlpha img).rows = img.rows ∧
      (ensureAlpha img).cols = img.cols ∧
      (ensureAlpha img).data =
        img.data.map (fun row => row.map (fun px => px ++ [255]))) ∧
    (img.channels ≠ 3 → ensureAlpha img = img) := by
  constructor
  · intro h
    simp [ensureAlpha, h]
  · intro h
    simp [ensureAlpha, h]

/-- Claim C3 witness: a 3-channel 1×1 image gains the 255 alpha entry, and a
2-channel image passes through unchanged. -/
theorem ensureAlpha_channels_spec_witness :
    ((ensureAlpha { rows := 1, cols := 1, channels := 3,
                    data := [[[10, 20, 30]]] }).channels = 4 ∧
     (ensureAlpha { rows := 1, cols := 1, channels := 3,
                    data := [[[10, 20, 30]]] }).rows = 1 ∧
     (ensureAlpha { rows := 1, cols := 1, channels := 3,
                    data := [[[10, 20, 30]]] }).cols = 1 ∧
     (ensureAlpha { rows := 1, cols := 1, channels := 3,
                    data := [[[10, 20, 30]]] }).data =
       [[[10, 20, 30]]].map (fun row => row.map (fun px => px ++ [255]))) ∧
    ensureAlpha { rows := 1, cols := 1, channels := 2, data := [[[1, 2]]] } =
      { rows := 1, cols := 1, channels := 2, data := [[[1, 2]]] } :=
  ⟨(ensureAlpha_channels_spec _).1 rfl, (ensureAlpha_channels_spec _).2 (by decide)⟩

/-- Claim C7: with the output directory ensured first, a batch whose match list is
empty returns exactly one failed ProcessingResult, and the action trace
shows the directory-ensuring step ran before the match list was examined. -/
theorem processDirectory_no_match (procFile : List Char → List Char → Bool)
    (entries : List DirEntry) (inputDir outputDir : List Char)
    (options : ProcessingOptions)
    (h : GetMatchingFiles entries options.pattern = []) :
    (ProcessDirectory procFile true entries inputDir outputDir options).2 =
      [{ inputPath := inputDir, outputPath := outputDir, success := false,
         error := "未找到匹配的文件".data }] ∧
    (ProcessDirectory procFile true entries inputDir outputDir options).1 =
      [BatchAction.ensureOutputDir, BatchAction.listMatches] := by
  constructor <;> simp [ProcessDirectory, h]

/-- Claim C7 witness: a directory holding only `c.txt` with pattern `*.jpg` yields
the single failed record, the output directory having been ensured first. -/
theorem processDirectory_no_match_witness :
    (ProcessDirectory (fun _ _ => true) true [⟨"c.txt".data, true⟩]
        "in".data "out".data ⟨OutputFormat.PNG, 100, "*.jpg".data⟩).2 =
      [{ inputPath := "in".data, outputPath := "out".data, success := false,
         error := "未找到匹配的文件".data }] ∧
    (ProcessDirectory (fun _ _ => true) true [⟨"c.txt".data, true⟩]
        "in".data "out".data ⟨OutputFormat.PNG, 100, "*.jpg".data⟩).1 =
      [BatchAction.ensureOutputDir, BatchAction.listMatches] :=
  processDirectory_no_match (fun _ _ => true) [⟨"c.txt".data, true⟩]
    "in".data "out".data ⟨OutputFormat.PNG, 100, "*.jpg".data⟩ (by decide)

/-- Claim C1 counterexample: on the square input (1, 1) the normalizer
returns (512, 512) — both dimensions equal 512, so it is false that exactly
one output dimension equals 512; and on the input (512, 93) the double
rounding of the compiled IEEE arithmetic returns (512, 92), not the exact
integer truncation ⌊512·93/512⌋ = 93 of the proportional scale, so the
truncation claim fails as well. -/
theorem calculateTelegramSize_counterexample :
    (CalculateTelegramSize 1 1 = (512, 512) ∧
     ¬ (((CalculateTelegramSize 1 1).1 = 512 ∧ (CalculateTelegramSize 1 1).2 ≠ 512) ∨
        ((CalculateTelegramSize 1 1).1 ≠ 512 ∧ (CalculateTelegramSize 1 1).2 = 512))) ∧
    (CalculateTelegramSize 512 93 = (512, 92) ∧
     (CalculateTelegramSize 512 93).2 ≠ ⌊512 * (93:ℚ) / 512⌋) := by
  refine ⟨⟨calc_one_one, ?_⟩, calc_512_93, ?_⟩
  · rw [calc_one_one]
    decide
  · rw [calc_512_93]
    norm_num

/-- Claim C1 (amended): for every `int` input with 0 < w, h < 2^31,
`CalculateTelegramSize` returns a pair in which at least one dimension
equals 512 (both do exactly when w = h), both dimensions lie in [0, 512],
the non-512 dimension is the integer truncation of the IEEE-computed
proportional scale (`⌊fl(512 / fl(w/h))⌋` resp. `⌊fl(512 · fl(w/h))⌋`), and
that truncated value is within one pixel of the exact truncation
`⌊512·side/longerSide⌋` (double rounding can shift it by one, as at
(512, 93)). -/
theorem calculateTelegramSize_spec (w h : Int) (hw : 0 < w) (hh : 0 < h)
    (hwB : w < 2^31) (hhB : h < 2^31) :
    ((CalculateTelegramSize w h).1 = 512 ∨ (CalculateTelegramSize w h).2 = 512) ∧
    (CalculateTelegramSize w h).1 ≤ 512 ∧
    (CalculateTelegramSize w h).2 ≤ 512 ∧
    0 ≤ (CalculateTelegramSize w h).1 ∧
    0 ≤ (CalculateTelegramSize w h).2 ∧
    (h ≤ w → (CalculateTelegramSize w h).1 = 512 ∧
      (CalculateTelegramSize w h).2 = ⌊flPos (512 / flPos ((w:ℚ)/(h:ℚ)))⌋) ∧
    (w < h → (CalculateTelegramSize w h).2 = 512 ∧
      (CalculateTelegramSize w h).1 = ⌊flPos (512 * flPos ((w:ℚ)/(h:ℚ)))⌋) ∧
    |(CalculateTelegramSize w h).1 - ⌊512 * (w:ℚ) / max (w:ℚ) (h:ℚ)⌋| ≤ 1 ∧
    |(CalculateTelegramSize w h).2 - ⌊512 * (h:ℚ) / max (w:ℚ) (h:ℚ)⌋| ≤ 1 := by
  have hwq : (0:ℚ) < (w:ℚ) := by exact_mod_cast hw
  have hhq : (0:ℚ) < (h:ℚ) := by exact_mod_cast hh
  rcases le_or_lt h w with hwh | hwh
  · have hq1 : (1:ℚ) ≤ (w:ℚ)/(h:ℚ) := by
      rw [le_div_iff₀ hhq]
      have : (h:ℚ) ≤ (w:ℚ) := by exact_mod_cast hwh
      linarith
    obtain ⟨b1, b2, b3, b4⟩ := fl_div_bounds ((w:ℚ)/(h:ℚ)) hq1
    have hmax : max (w:ℚ) (h:ℚ) = (w:ℚ) := max_eq_left (by exact_mod_cast hwh)
    have hEq : (512:ℚ) / ((w:ℚ)/(h:ℚ)) = 512 * (h:ℚ) / (w:ℚ) :=
      div_div_eq_mul_div 512 (w:ℚ) (h:ℚ)
    have hself : 512 * (w:ℚ) / (w:ℚ) = 512 := by
      rw [mul_div_assoc, div_self hwq.ne', mul_one]
    have ht_le : ⌊flPos (512 / flPos ((w:ℚ)/(h:ℚ)))⌋ ≤ 512 := by
      calc ⌊flPos (512 / flPos ((w:ℚ)/(h:ℚ)))⌋ ≤ ⌊(512:ℚ)⌋ := Int.floor_le_floor b4
        _ = 512 := by norm_num
    have ht_nonneg : 0 ≤ ⌊flPos (512 / flPos ((w:ℚ)/(h:ℚ)))⌋ :=
      Int.floor_nonneg.mpr b3.le
    have habs2 : |⌊flPos (512 / flPos ((w:ℚ)/(h:ℚ)))⌋ - ⌊512 * (h:ℚ)/(w:ℚ)⌋| ≤ 1 := by
      apply floor_dist_le_one
      · rw [← hEq]; exact b1
      · rw [← hEq]; exact b2
    rw [calc_wide w h hw hh hwh, hmax]
    exact ⟨Or.inl rfl, le_refl _, ht_le, by norm_num, ht_nonneg,
      fun _ => ⟨rfl, rfl⟩, fun hc => absurd hwh (not_le.mpr hc),
      by rw [hself]; norm_num, habs2⟩
  · have hq0 : (0:ℚ) < (w:ℚ)/(h:ℚ) := by positivity
    have hqub : (w:ℚ)/(h:ℚ) ≤ 1 - 1/2^31 := by
      rw [div_le_iff₀ hhq]
      have h1 : (w:ℚ) + 1 ≤ (h:ℚ) := by exact_mod_cast hwh
      have h2 : (h:ℚ) ≤ 2^31 := by
        have h3 : (h:ℚ) ≤ ((2^31 : ℤ) : ℚ) := by exact_mod_cast hhB.le
        calc (h:ℚ) ≤ ((2^31 : ℤ) : ℚ) := h3
          _ = 2^31 := by norm_num
      have hx : (1 - 1/2^31) * (h:ℚ) = (h:ℚ) - (h:ℚ) * (1/2^31) := by ring
      rw [hx]
      have h3 : (h:ℚ) * (1/2^31) ≤ 2^31 * (1/2^31) :=
        mul_le_mul_of_nonneg_right h2 (by norm_num)
      have h4 : (2:ℚ)^31 * (1/2^31) = 1 := by norm_num
      linarith
    obtain ⟨b1, b2, b3, b4⟩ := fl_mul_bounds ((w:ℚ)/(h:ℚ)) hq0 hqub
    have hmax : max (w:ℚ) (h:ℚ) = (h:ℚ) := max_eq_right (by exact_mod_cast hwh.le)
    have hEq : (512:ℚ) * ((w:ℚ)/(h:ℚ)) = 512 * (w:ℚ) / (h:ℚ) := by
      rw [mul_div_assoc]
    have hself : 512 * (h:ℚ) / (h:ℚ) = 512 := by
      rw [mul_div_assoc, div_self hhq.ne', mul_one]
    have ht_le : ⌊flPos (512 * flPos ((w:ℚ)/(h:ℚ)))⌋ ≤ 512 := by
      calc ⌊flPos (512 * flPos ((w:ℚ)/(h:ℚ)))⌋ ≤ ⌊(512:ℚ)⌋ := Int.floor_le_floor b4
        _ = 512 := by norm_num
    have ht_nonneg : 0 ≤ ⌊flPos (512 * flPos ((w:ℚ)/(h:ℚ)))⌋ :=
      Int.floor_nonneg.mpr b3.le
    have habs1 : |⌊flPos (512 * flPos ((w:ℚ)/(h:ℚ)))⌋ - ⌊512 * (w:ℚ)/(h:ℚ)⌋| ≤ 1 := by
      apply floor_dist_le_one
      · rw [← hEq]; exact b1
      · rw [← hEq]; exact b2
    rw [calc_tall w h hw hh hwh hhB, hmax]
    exact ⟨Or.inr rfl, ht_le, le_refl _, ht_nonneg, by norm_num,
      fun hc => absurd hc (not_le.mpr hwh), fun _ => ⟨rfl, rfl⟩,
      habs1, by rw [hself]; norm_num⟩

/-- Claim C1 witness: the specification theorem instantiated at the concrete
input (1024, 512). -/
theorem calculateTelegramSize_spec_witness :
    ((CalculateTelegramSize 1024 512).1 = 512 ∨
      (CalculateTelegramSize 1024 512).2 = 512) ∧
    (CalculateTelegramSize 1024 512).1 ≤ 512 ∧
    (CalculateTelegramSize 1024 512).2 ≤ 512 ∧
    0 ≤ (CalculateTelegramSize 1024 512).1 ∧
    0 ≤ (CalculateTelegramSize 1024 512).2 ∧
    ((512:Int) ≤ 1024 → (CalculateTelegramSize 1024 512).1 = 512 ∧
      (CalculateTelegramSize 1024 512).2 =
        ⌊flPos (512 / flPos (((1024:Int):ℚ)/((512:Int):ℚ)))⌋) ∧
    ((1024:Int) < 512 → (CalculateTelegramSize 1024 512).2 = 512 ∧
      (CalculateTelegramSize 1024 512).1 =
        ⌊flPos (512 * flPos (((1024:Int):ℚ)/((512:Int):ℚ)))⌋) ∧
    |(CalculateTelegramSize 1024 512).1 -
      ⌊512 * ((1024:Int):ℚ) / max ((1024:Int):ℚ) ((512:Int):ℚ)⌋| ≤ 1 ∧
    |(CalculateTelegramSize 1024 512).2 -
      ⌊512 * ((512:Int):ℚ) / max ((1024:Int):ℚ) ((512:Int):ℚ)⌋| ≤ 1 :=
  calculateTelegramSize_spec 1024 512 (by norm_num) (by norm_num)
    (by norm_num) (by norm_num)

/-- Claim C2 counterexample: for the degenerate input (512, 0) the code does
not report an error; the IEEE division produces +∞ and the function silently
returns the size (512, 0), which is passed downstream. -/
theorem calculateTelegramSize_heightZero_counterexample :
    CalculateTelegramSize 512 0 = (512, 0) := by
  simp [CalculateTelegramSize, intDiv, dGeOne, dDivOf, dTruncToInt]

/-- Claim C2 (amended): `CalculateTelegramSize` performs no input
validation: for every width w > 0 with height 0 it performs the division
(IEEE +∞ aspect ratio), takes the wide branch, and returns (512, 0) with no
error reported. -/
theorem calculateTelegramSize_heightZero_silent (w : Int) (hw : 0 < w) :
    CalculateTelegramSize w 0 = (512, 0) := by
  simp [CalculateTelegramSize, intDiv, hw, dGeOne, dDivOf, dTruncToInt]

/-- Claim C2 witness: the amended theorem instantiated at width 7. -/
theorem calculateTelegramSize_heightZero_witness :
    CalculateTelegramSize 7 0 = (512, 0) :=
  calculateTelegramSize_heightZero_silent 7 (by decide)

/-- Claim C4 counterexample: a gif carrying both a global color table (color
red 1 / green 2 / blue 3) and a frame-local table (9/9/9) is decoded through
the **global** table — pixel [3, 2, 1, 255], not the local [9, 9, 9, 255] —
refuting the claim that the local table takes precedence. -/
theorem readGifFirstFrame_globalFirst_counterexample :
    (ReadGifFirstFrame ⟨some ⟨[⟨1, 2, 3⟩]⟩,
        [⟨1, 1, some ⟨[⟨9, 9, 9⟩]⟩, [0]⟩]⟩).map RasterImage.data =
      some [[[3, 2, 1, 255]]] ∧
    (ReadGifFirstFrame ⟨some ⟨[⟨1, 2, 3⟩]⟩,
        [⟨1, 1, some ⟨[⟨9, 9, 9⟩]⟩, [0]⟩]⟩).map RasterImage.data ≠
      some [[[9, 9, 9, 255]]] := by
  constructor <;> decide

/-- Claim C4 (amended): `ReadGifFirstFrame` resolves every pixel's palette
index through the **global** color table, falling back to the frame's local
table only when there is no global table; an index out of range for the
active table is clamped to index 0; a gif with neither table decodes to an
error (`none`); and every output pixel is the 4-channel BGRA list ending in
alpha 255 (fully opaque). -/
theorem readGifFirstFrame_spec (scm : Option ColorMapObject) (image : SavedImage)
    (rest : List SavedImage) (cm : ColorMapObject) :
    (scm = none → image.colorMap = none →
       ReadGifFirstFrame ⟨scm, image :: rest⟩ = none) ∧
    ((scm = some cm ∨ (scm = none ∧ image.colorMap = some cm)) →
       ReadGifFirstFrame ⟨scm, image :: rest⟩ = some
         { rows := image.height, cols := image.width, channels := 4,
           data := (List.range image.height).map (fun y =>
             (List.range image.width).map (fun x =>
               let idx := image.rasterBits.getD (y * image.width + x) 0
               let idx2 := if cm.colors.length ≤ idx then 0 else idx
               let color := cm.colors.getD idx2 ⟨0, 0, 0⟩
               [color.blue, color.green, color.red, 255])) } ∧
       allPixels (fun px => px.length == 4 && px.getLast? == some 255)
         { rows := image.height, cols := image.width, channels := 4,
           data := (List.range image.height).map (fun y =>
             (List.range image.width).map (fun x =>
               let idx := image.rasterBits.getD (y * image.width + x) 0
               let idx2 := if cm.colors.length ≤ idx then 0 else idx
               let color := cm.colors.getD idx2 ⟨0, 0, 0⟩
               [color.blue, color.green, color.red, 255])) } = true) := by
  constructor
  · rintro rfl h2
    simp [ReadGifFirstFrame, h2]
  · rintro (rfl | ⟨rfl, h2⟩)
    · exact ⟨by simp [ReadGifFirstFrame], allPixels_gifFrame image cm⟩
    · exact ⟨by simp [ReadGifFirstFrame, h2], allPixels_gifFrame image cm⟩

/-- Claim C4 witness: a 2×1 frame with only a global one-color table and the
out-of-range index 5 in its raster decodes with the index clamped to 0: both
pixels are [30, 20, 10, 255] (blue 30, green 20, red 10, alpha 255). -/
theorem readGifFirstFrame_spec_witness :
    ReadGifFirstFrame ⟨some ⟨[⟨10, 20, 30⟩]⟩, [⟨2, 1, none, [0, 5]⟩]⟩ =
      some { rows := 1, cols := 2, channels := 4,
             data := [[[30, 20, 10, 255], [30, 20, 10, 255]]] } ∧
    allPixels (fun px => px.length == 4 && px.getLast? == some 255)
      { rows := 1, cols := 2, channels := 4,
        data := [[[30, 20, 10, 255], [30, 20, 10, 255]]] } = true := by
  have h := (readGifFirstFrame_spec (some ⟨[⟨10, 20, 30⟩]⟩) ⟨2, 1, none, [0, 5]⟩
    [] ⟨[⟨10, 20, 30⟩]⟩).2 (Or.inl rfl)
  exact h

/-- Claim C5 counterexample: for `anim.gif` the giflib strategy fails
(`gifResult = none`) while the general-purpose reader would succeed
(`cvResult` is a valid frame and the save succeeds), yet `ProcessAnimation`
returns failure — the general reader is never consulted, so the decode error
is surfaced without both strategies having failed. -/
theorem processAnimation_no_fallback_counterexample :
    ProcessAnimation (fun img _ => img) (fun _ => true)
      { gifResult := none,
        cvResult := some { rows := 1, cols := 1, channels := 4,
                           data := [[[0, 0, 0, 255]]] } }
      "anim.gif".data = false := by
  decide

/-- Claim C5 (amended): `ProcessAnimation` selects exactly one decode
strategy by a case-sensitive extension comparison — the dedicated giflib
parser for `.gif`/`.GIF`, the general-purpose reader for everything else —
and when the selected strategy yields no frame the function fails
immediately; there is no fallback from one strategy to the other. -/
theorem processAnimation_single_strategy
    (resizePrim : RasterImage → Int × Int → RasterImage)
    (save : RasterImage → Bool) (readers : AnimReaders) (inputPath : List Char) :
    ((extensionOf inputPath = ".gif".data ∨ extensionOf inputPath = ".GIF".data) →
       animFirstFrame readers inputPath = readers.gifResult) ∧
    (¬ (extensionOf inputPath = ".gif".data ∨ extensionOf inputPath = ".GIF".data) →
       animFirstFrame readers inputPath = readers.cvResult) ∧
    (animFirstFrame readers inputPath = none →
       ProcessAnimation resizePrim save readers inputPath = false) := by
  refine ⟨fun h => by simp [animFirstFrame, h], fun h => by simp [animFirstFrame, h],
    fun h => by simp [ProcessAnimation, h]⟩

/-- Claim C5 witness: `a.gif` is routed to the giflib strategy, `b.webp` to
the general reader, and a failed giflib decode of `a.gif` fails the whole
call. -/
theorem processAnimation_single_strategy_witness :
    animFirstFrame { gifResult := none, cvResult := none } "a.gif".data =
      (AnimReaders.mk none none).gifResult ∧
    animFirstFrame { gifResult := none, cvResult := none } "b.webp".data =
      (AnimReaders.mk none none).cvResult ∧
    ProcessAnimation (fun img _ => img) (fun _ => true)
      { gifResult := none, cvResult := none } "a.gif".data = false :=
  ⟨(processAnimation_single_strategy (fun img _ => img) (fun _ => true)
      (AnimReaders.mk none none) "a.gif".data).1 (by decide),
   (processAnimation_single_strategy (fun img _ => img) (fun _ => true)
      (AnimReaders.mk none none) "b.webp".data).2.1 (by decide),
   (processAnimation_single_strategy (fun img _ => img) (fun _ => true)
      (AnimReaders.mk none none) "a.gif".data).2.2 (by decide)⟩

/-- Claim C6: when the output directory is ensured and the match list is
non-empty, `ProcessDirectory` returns exactly one ProcessingResult per
matched file, the match list is lexicographically sorted, and the record at
every index i belongs to the i-th matched file with a success flag depending
only on that file's own pipeline outcome — so one file's failure does not
stop or affect the rest of the batch. -/
theorem processDirectory_per_file (procFile : List Char → List Char → Bool)
    (entries : List DirEntry) (inputDir outputDir : List Char)
    (options : ProcessingOptions) (i : Nat)
    (hne : GetMatchingFiles entries options.pattern ≠ [])
    (hi : i < (GetMatchingFiles entries options.pattern).length) :
    (ProcessDirectory procFile true entries inputDir outputDir options).2.length =
      (GetMatchingFiles entries options.pattern).length ∧
    List.Sorted (· ≤ ·) (GetMatchingFiles entries options.pattern) ∧
    (ProcessDirectory procFile true entries inputDir outputDir options).2[i]? =
      some { inputPath := (GetMatchingFiles entries options.pattern).get ⟨i, hi⟩,
             outputPath := outputPathFor outputDir
               ((GetMatchingFiles entries options.pattern).get ⟨i, hi⟩)
               options.format,
             success := procFile ((GetMatchingFiles entries options.pattern).get ⟨i, hi⟩)
               (outputPathFor outputDir
                 ((GetMatchingFiles entries options.pattern).get ⟨i, hi⟩)
                 options.format),
             error := if procFile ((GetMatchingFiles entries options.pattern).get ⟨i, hi⟩)
                 (outputPathFor outputDir
                   ((GetMatchingFiles entries options.pattern).get ⟨i, hi⟩)
                   options.format)
               then [] else "Processing failed".data } := by
  refine ⟨?_, ?_, ?_⟩
  · simp [ProcessDirectory, hne]
  · simp only [GetMatchingFiles]
    exact List.sorted_insertionSort _ _
  · simp [ProcessDirectory, hne, List.getElem?_map, List.getElem?_eq_getElem hi,
      List.get_eq_getElem]

/-- Claim C6 witness: a directory with `b.jpg`, `a.jpg`, `c.txt` under
pattern `*.jpg`, where every file fails to process: both matched files still
get their own failed record, in sorted order (index 1 is `b.jpg`). -/
theorem processDirectory_per_file_witness :
    (ProcessDirectory (fun _ _ => false) true
        [⟨"b.jpg".data, true⟩, ⟨"a.jpg".data, true⟩, ⟨"c.txt".data, true⟩]
        "in".data "out".data ⟨OutputFormat.PNG, 100, "*.jpg".data⟩).2.length =
      (GetMatchingFiles
        [⟨"b.jpg".data, true⟩, ⟨"a.jpg".data, true⟩, ⟨"c.txt".data, true⟩]
        "*.jpg".data).length ∧
    List.Sorted (· ≤ ·)
      (GetMatchingFiles
        [⟨"b.jpg".data, true⟩, ⟨"a.jpg".data, true⟩, ⟨"c.txt".data, true⟩]
        "*.jpg".data) ∧
    (ProcessDirectory (fun _ _ => false) true
        [⟨"b.jpg".data, true⟩, ⟨"a.jpg".data, true⟩, ⟨"c.txt".data, true⟩]
        "in".data "out".data ⟨OutputFormat.PNG, 100, "*.jpg".data⟩).2[1]? =
      some { inputPath :=
               (GetMatchingFiles
                 [⟨"b.jpg".data, true⟩, ⟨"a.jpg".data, true⟩, ⟨"c.txt".data, true⟩]
                 "*.jpg".data).get ⟨1, by decide⟩,
             outputPath := outputPathFor "out".data
               ((GetMatchingFiles
                 [⟨"b.jpg".data, true⟩, ⟨"a.jpg".data, true⟩, ⟨"c.txt".data, true⟩]
                 "*.jpg".data).get ⟨1, by decide⟩) OutputFormat.PNG,
             success := false,
             error := "Processing failed".data } := by
  have h := processDirectory_per_file (fun _ _ => false)
    [⟨"b.jpg".data, true⟩, ⟨"a.jpg".data, true⟩, ⟨"c.txt".data, true⟩]
    "in".data "out".data ⟨OutputFormat.PNG, 100, "*.jpg".data⟩ 1
    (by decide) (by decide)
  exact h

end AnyToSticker
